import Mathlib

/-!
Verification of the rethinkdb-for-rust driver against its natural-language
specification.  The development shallowly embeds two parts of the repository:

* the ReQL `Command` term tree and its wire serialisation (crate `reql-rust`,
  exercised by the in-repo test `insert::tests::r_table_insert`, together with
  the per-command option structs `InsertOption`, `ReconfigureOption`,
  `GetAllOption` and `MaxOption`);
* the session/connection layer of crate `neor` (`neor/src/connection.rs`):
  token allocation, the broken and changefeed flags, the token-to-channel
  registry, `Session::connection`, `Session::close`, `Connection::close` and
  `Drop for Connection`, modelled as a small-step transition system.
-/

namespace Wire

/-- Modelled from the spec: a JSON value as produced by `serde_json`, restricted
to the shapes the driver's term trees carry (null, booleans, integers, strings,
arrays, objects with string keys).  String rendering does not escape special
characters; no string used in this development contains any. -/
inductive Json where
  | null : Json
  | bool (b : Bool) : Json
  | num (n : Int) : Json
  | str (s : String) : Json
  | arr (xs : List Json) : Json
  | obj (fields : List (String × Json)) : Json

mutual

/-- Modelled from the spec: compact `serde_json` rendering of a JSON value
(no spaces, object fields in the given order). -/
def Json.render : Json → String
  | .null => "null"
  | .bool b => if b then "true" else "false"
  | .num n => toString n
  | .str s => "\"" ++ s ++ "\""
  | .arr xs => "[" ++ Json.renderList xs ++ "]"
  | .obj fields => "\x7b" ++ Json.renderFields fields ++ "\x7d"

/-- Comma-separated rendering of a list of JSON values. -/
def Json.renderList : List Json → String
  | [] => ""
  | [x] => x.render
  | x :: y :: xs => x.render ++ "," ++ Json.renderList (y :: xs)

/-- Comma-separated rendering of the `"key":value` fields of a JSON object. -/
def Json.renderFields : List (String × Json) → String
  | [] => ""
  | [(k, v)] => "\"" ++ k ++ "\":" ++ v.render
  | (k, v) :: f :: fs =>
      "\"" ++ k ++ "\":" ++ v.render ++ "," ++ Json.renderFields (f :: fs)

end

/-- The term-type tags used by the claims.  Their numeric codes are an external
contract with the RethinkDB server (the `ql2` protocol definition); `Table = 15`
and `Insert = 56` are pinned by the repository's own test
`insert::tests::r_table_insert`. -/
inductive TermType where
  | table : TermType
  | insert : TermType
  | reconfigure : TermType
  | get_all : TermType
deriving DecidableEq, Repr

/-- Numeric wire code of a term type (the server's fixed enum-to-integer
mapping from the `ql2` protocol). -/
def TermType.code : TermType → Nat
  | .table => 15
  | .insert => 56
  | .reconfigure => 176
  | .get_all => 78

/-- Modelled from the spec: a `Command` term-tree node (`proto.rs` is not under
`src/`; only its callers and tests are).  A node is tagged by a `TermType`,
holds an ordered list of child argument nodes, and an options object; literal
arguments are wrapped by the JSON-to-term literal constructor `from_json` and
carry a raw JSON datum. -/
inductive Term where
  | datum (v : Json) : Term
  | node (typ : TermType) (args : List Term) (opts : List (String × Json)) : Term

/-- Modelled from the spec: `Command::new(term_type)` builds a node with no
arguments and no options. -/
def Term.new (typ : TermType) : Term := .node typ [] []

/-- Modelled from the spec: `Command::from_json(v)` wraps a JSON literal as a
term-tree leaf. -/
def Term.from_json (v : Json) : Term := .datum v

/-- Modelled from the spec: `with_arg(a)` appends `a` to the node's argument
list (identity on literal leaves, where the source never calls it). -/
def Term.with_arg : Term → Term → Term
  | .node typ args opts, a => .node typ (args ++ [a]) opts
  | .datum v, _ => .datum v

/-- Modelled from the spec: `with_parent(p)` prepends `p` as argument 0,
so that left-to-right method chaining reads as nested application. -/
def Term.with_parent : Term → Term → Term
  | .node typ args opts, p => .node typ (p :: args) opts
  | .datum v, _ => .datum v

/-- Modelled from the spec: `with_opts(o)` attaches the serialised options
object of `o` to the node. -/
def Term.with_opts : Term → List (String × Json) → Term
  | .node typ args _, opts => .node typ args opts
  | .datum v, _ => .datum v

mutual

/-- Modelled from the spec: `cmd::serialise` walks the tree and emits nested
JSON arrays — `[type_code,[args...]]`, or `[type_code,[args...],{opts}]` when
the options object is non-empty; the options object is omitted if empty.
Literal leaves render as their raw JSON value. -/
def Term.serialise : Term → String
  | .datum v => v.render
  | .node typ args opts =>
      "[" ++ toString typ.code ++ ",[" ++ Term.serialiseArgs args ++ "]"
        ++ (if opts.isEmpty then "" else "," ++ Json.render (.obj opts))
        ++ "]"

/-- Comma-separated serialisation of a node's argument list. -/
def Term.serialiseArgs : List Term → String
  | [] => ""
  | [a] => a.serialise
  | a :: b :: rest => a.serialise ++ "," ++ Term.serialiseArgs (b :: rest)

end

/-- Modelled from the spec: the `r.table(name)` builder — a `Table` node whose
single argument is the table name literal (wire form `[15,["name"]]`, pinned by
the in-repo test). -/
def table (name : String) : Term :=
  (Term.new .table).with_arg (Term.from_json (.str name))

/-- Translated from `InsertBuilder::new` (reql-rust/src/cmd/insert.rs): wrap the
document via `Command::from_json` and attach it as argument of an `Insert`
node. -/
def InsertBuilder.new (document : Json) : Term :=
  (Term.new .insert).with_arg (Term.from_json document)

/-- Translated from `InsertBuilder::_with_parent` (reql-rust/src/cmd/insert.rs)
combined with the chaining contract of the spec: `table.insert(doc)` makes the
table node argument 0 of the insert node.  `Into<Command> for InsertBuilder`
returns the inner command without attaching the (default) options. -/
def r_table_insert (tableName : String) (document : Json) : Term :=
  (InsertBuilder.new document).with_parent (table tableName)

/-- The single document `{"item": "bar"}` used by the in-repo test. -/
def itemBarDoc : Json := .obj [("item", .str "bar")]

/-- Emit a single optional field the way serde's `skip_serializing_if =
"Option::is_none"` does: the key/value pair when the value is set, nothing
when it is `None`. -/
def optField (key : String) : Option Json → List (String × Json)
  | some v => [(key, v)]
  | none => []

/-- Translated from `InsertOption` (reql-rust/src/cmd/insert.rs): four optional
fields, each annotated `skip_serializing_if = "Option::is_none"`.  The payload
types `Durability`, `ReturnChanges` and `Conflict` live outside `src/`, so each
set field is represented by its serialised JSON value. -/
structure InsertOption where
  durability : Option Json
  return_changes : Option Json
  conflict : Option Json
  ignore_write_hook : Option Bool

/-- Translated from `#[derive(Default)]` on `InsertOption`: every field is
`None`. -/
def InsertOption.default : InsertOption :=
  { durability := none, return_changes := none, conflict := none,
    ignore_write_hook := none }

/-- Serialisation of `InsertOption` as an options object: the serde derive
emits the set fields in declaration order and skips the `None` ones. -/
def InsertOption.toOpts (o : InsertOption) : List (String × Json) :=
  optField "durability" o.durability
    ++ optField "return_changes" o.return_changes
    ++ optField "conflict" o.conflict
    ++ optField "ignore_write_hook" (o.ignore_write_hook.map Json.bool)

/-- Translated from the `match` in `impl Serialize for ReconfigureOption`
(src/cmd/reconfigure.rs): `Replicas` is either a count or a map of server tags
to counts together with a primary replica tag. -/
inductive Replicas where
  | int (n : Nat) : Replicas
  | map (replicas : List (String × Nat)) (primary_replica_tag : String) : Replicas

/-- Translated from `ReconfigureOption` (src/cmd/reconfigure.rs): optional
shard count, replicas, dry-run flag and emergency-repair mode.  The
`EmergencyRepair` payload type lives outside `src/`, so a set field is
represented by its serialised JSON value. -/
structure ReconfigureOption where
  shards : Option Nat
  replicas : Option Replicas
  dry_run : Option Bool
  emergency_repair : Option Json

/-- Translated from `#[derive(Default)]` on `ReconfigureOption`: every field is
`None`. -/
def ReconfigureOption.default : ReconfigureOption :=
  { shards := none, replicas := none, dry_run := none, emergency_repair := none }

/-- Translated from `impl Serialize for ReconfigureOption`
(src/cmd/reconfigure.rs lines 37-88): the impl builds an `InnerOptions` struct
whose fields — in declaration order `dry_run`, `emergency_repair`, `shards`,
`replicas`, `primary_replica_tag` — are all `skip_serializing_if =
"Option::is_none"`; `replicas` and `primary_replica_tag` are derived from the
`Replicas` value (`Int` yields a bare number and no tag, `Map` yields the tag
map and its primary tag). -/
def ReconfigureOption.toOpts (o : ReconfigureOption) : List (String × Json) :=
  let rp : Option Json × Option Json :=
    match o.replicas with
    | some (.int i) => (some (Json.num i), none)
    | some (.map replicas primary_replica_tag) =>
        (some (Json.obj (replicas.map (fun p => (p.1, Json.num p.2)))),
         some (Json.str primary_replica_tag))
    | none => (none, none)
  optField "dry_run" (o.dry_run.map Json.bool)
    ++ optField "emergency_repair" o.emergency_repair
    ++ optField "shards" (o.shards.map (fun n => Json.num n))
    ++ optField "replicas" rp.1
    ++ optField "primary_replica_tag" rp.2

/-- Translated from `reconfigure::new` (src/cmd/reconfigure.rs lines 11-13):
`Command::new(TermType::Reconfigure).with_opts(opts)`. -/
def reconfigure (opts : ReconfigureOption) : Term :=
  (Term.new .reconfigure).with_opts opts.toOpts

/-- The list of keys present in a serialised options object. -/
def optKeys (l : List (String × Json)) : List String := l.map (fun p => p.1)

/-- Translated from `GetAllOption` (reql-rust/src/cmd/get_all.rs lines 15-19):
a single optional `index` field (`Option<Cow<'static, str>>`) under a plain
`#[derive(Serialize)]` — there is NO `skip_serializing_if` attribute on it. -/
structure GetAllOption where
  index : Option String

/-- Translated from `#[derive(Default)]` on `GetAllOption`: the field is
`None`. -/
def GetAllOption.default : GetAllOption := { index := none }

/-- Serialisation of `GetAllOption` as an options object: without
`skip_serializing_if`, the serde derive emits every field, rendering a `None`
as JSON `null`. -/
def GetAllOption.toOpts (o : GetAllOption) : List (String × Json) :=
  [("index", match o.index with | some s => Json.str s | none => Json.null)]

/-- Translated from `MaxOption` (reql-rust/src/cmd/max.rs lines 15-19): the
same single optional `index` field, also under a plain `#[derive(Serialize)]`
with no `skip_serializing_if`. -/
structure MaxOption where
  index : Option String

/-- Translated from `#[derive(Default)]` on `MaxOption`: the field is
`None`. -/
def MaxOption.default : MaxOption := { index := none }

/-- Serialisation of `MaxOption` as an options object: as for `GetAllOption`,
a `None` field is emitted as JSON `null`, not omitted. -/
def MaxOption.toOpts (o : MaxOption) : List (String × Json) :=
  [("index", match o.index with | some s => Json.str s | none => Json.null)]

/-- Translated from `GetAllBuilder::new` (reql-rust/src/cmd/get_all.rs lines
22-31): a `GetAll` node with each index key attached as a literal argument in
order. -/
def GetAllBuilder.new (index_keys : List String) : Term :=
  index_keys.foldl
    (fun command k => command.with_arg (Term.from_json (.str k)))
    (Term.new .get_all)

/-- Translated from `GetAllBuilder::make_query` (reql-rust/src/cmd/get_all.rs
lines 41-42): the options struct is attached unconditionally via
`self.0.with_opts(self.1)`, set or not. -/
def getAllQuery (index_keys : List String) (o : GetAllOption) : Term :=
  (GetAllBuilder.new index_keys).with_opts o.toOpts

end Wire

namespace Neor

/-- The size of Rust's `u64` token space. -/
def U64_SIZE : Nat := 18446744073709551616

/-- Rust's `u64::MAX`. -/
def U64_MAX : Nat := 18446744073709551615

/-- Translated from `err::ReqlDriverError` (the two variants
`Session::connection` can produce). -/
inductive ReqlDriverError where
  | ConnectionBroken : ReqlDriverError
  | ConnectionLocked : ReqlDriverError
deriving DecidableEq, Repr

/-- Translated from `ql2::query::QueryType` (the control-query kinds the
connection layer sends). -/
inductive QueryType where
  | start : QueryType
  | continueQuery : QueryType
  | stop : QueryType
  | noreplyWaitQuery : QueryType
  | serverInfo : QueryType
deriving DecidableEq, Repr

/-- A query written to the socket: its control type, the token of the
`Connection` that sent it, and whether the `r.expr(json!({"noreply": false}))`
argument was attached (see `Connection::close`). -/
structure SentQuery where
  qtype : QueryType
  token : Nat
  hasNoreplyFalseArg : Bool
deriving DecidableEq, Repr

/-- Translated from `InnerSession` (neor/src/connection.rs lines 26-34): the
default database, the token-to-channel registry (`DashMap<u64, Sender>`,
modelled by its key set), the `AtomicU64` token counter (field `token` in the
source, named `tokenCtr` here because the allocator method is also called
`token`), and the two `AtomicBool` flags.  The TCP stream is external I/O and
is not part of the state. -/
structure InnerSession where
  db : String
  channels : List Nat
  tokenCtr : Nat
  broken : Bool
  change_feed : Bool
deriving DecidableEq, Repr

/-- Key set after `DashMap::insert(k, _)`. -/
def insertKey (k : Nat) (l : List Nat) : List Nat :=
  if k ∈ l then l else k :: l

/-- Key set after `DashMap::remove(&k)`. -/
def removeKey (k : Nat) (l : List Nat) : List Nat :=
  l.filter (fun x => x ≠ k)

/-- Translated from `InnerSession::mark_broken`. -/
def InnerSession.mark_broken (s : InnerSession) : InnerSession :=
  { s with broken := true }

/-- Translated from `InnerSession::token` (lines 37-46): `fetch_update` stores
`x + 1` (wrapping in the `u64` space) and returns the previous value; if the
returned token is `u64::MAX` the session is marked broken. -/
def InnerSession.token (s : InnerSession) : Nat × InnerSession :=
  let t := s.tokenCtr
  let s' := { s with tokenCtr := (t + 1) % U64_SIZE }
  if t = U64_MAX then (t, s'.mark_broken) else (t, s')

/-- Translated from `InnerSession::broken` (lines 52-57): fail with
`ConnectionBroken` when the broken flag is set. -/
def InnerSession.brokenCheck (s : InnerSession) : Except ReqlDriverError Unit :=
  if s.broken then .error .ConnectionBroken else .ok ()

/-- Translated from `InnerSession::change_feed` (lines 71-76): fail with
`ConnectionLocked` when the changefeed flag is set. -/
def InnerSession.changeFeedCheck (s : InnerSession) : Except ReqlDriverError Unit :=
  if s.change_feed then .error .ConnectionLocked else .ok ()

/-- Translated from `Session::connection` (lines 115-122): check the broken
flag, then the changefeed flag, then allocate the next token, create a channel
and register it under the token; on an error path the session is untouched. -/
def Session.connection (s : InnerSession) :
    Except ReqlDriverError (Nat × InnerSession) :=
  match s.brokenCheck with
  | .error e => .error e
  | .ok _ =>
    match s.changeFeedCheck with
    | .error e => .error e
    | .ok _ =>
      let (tok, s') := s.token
      .ok (tok, { s' with channels := insertKey tok s'.channels })

/-- A live `Connection` handle (lines 362-368): it owns one token and shares a
`closed` flag (`Arc<AtomicBool>`, modelled by an index into a cell store, so
clones share the flag).  `isFeedQuery` is a ghost field recording whether the
query run on this handle was a changefeed — the source keeps no such per-handle
record, only the session-wide flag. -/
structure ConnHandle where
  token : Nat
  closedCell : Nat
  isFeedQuery : Bool
deriving DecidableEq, Repr

/-- The whole observable state: the session, the list of live `Connection`
handles, the store of `closed` cells, the log of queries written to the socket,
and a ghost log of every token returned by `Session::connection`. -/
structure World where
  sess : InnerSession
  conns : List ConnHandle
  cells : List Bool
  sent : List SentQuery
  issued : List Nat
deriving DecidableEq, Repr

/-- World-level `Session::connection` (lines 115-122 together with
`Connection::new`): on success the fresh handle is live, its `closed` cell is
`false`, and the issued token is logged. -/
def World.connectionW (w : World) : Except ReqlDriverError (ConnHandle × World) :=
  match Session.connection w.sess with
  | .error e => .error e
  | .ok (tok, s') =>
      let h : ConnHandle :=
        { token := tok, closedCell := w.cells.length, isFeedQuery := false }
      .ok (h, { w with sess := s', conns := w.conns ++ [h],
                       cells := w.cells ++ [false], issued := w.issued ++ [tok] })

/-- Translated from `impl Drop for Connection` (lines 418-425): remove the
handle's token from the registry, and clear the session's changefeed flag when
it is set — the source tests the session-wide flag, not whether this handle's
query was the changefeed.  Invalid indices leave the world unchanged. -/
def World.dropAt (w : World) (i : Nat) : World :=
  match w.conns[i]? with
  | none => w
  | some h =>
      let s := { w.sess with channels := removeKey h.token w.sess.channels }
      let s := if s.change_feed then { s with change_feed := false } else s
      { w with sess := s, conns := w.conns.eraseIdx i }

/-- Translated from `#[derive(Clone)] Connection` (line 362): a clone is a
second live handle with the same token and the same shared `closed` cell. -/
def World.cloneAt (w : World) (i : Nat) : World :=
  match w.conns[i]? with
  | none => w
  | some h => { w with conns := w.conns ++ [h] }

/-- Translated from `Connection::close` (lines 380-407): when the session's
changefeed flag is not set, return `Ok` immediately (the source only logs a
trace message); otherwise set the shared `closed` flag, send a `STOP` query for
this token — with the `r.expr(json!({"noreply": false}))` argument attached
exactly when `noreply_wait` is `false` — and clear the changefeed flag.  The
server's reply to the `STOP` is external and modelled as success. -/
def Connection.close (w : World) (i : Nat) (noreply_wait : Bool) :
    Except ReqlDriverError World :=
  match w.conns[i]? with
  | none => .ok w
  | some h =>
      if !w.sess.change_feed then .ok w
      else
        let w := { w with cells := w.cells.set h.closedCell true }
        let q : SentQuery :=
          { qtype := .stop, token := h.token, hasNoreplyFalseArg := !noreply_wait }
        let w := { w with sent := w.sent ++ [q] }
        .ok { w with sess := { w.sess with change_feed := false } }

/-- Translated from `Session::close` (lines 352-354):
`self.connection()?.close(noreply_wait).await` — draw a fresh connection, close
it, and drop the temporary handle when it goes out of scope. -/
def Session.close (w : World) (noreply_wait : Bool) :
    Except ReqlDriverError World :=
  match w.connectionW with
  | .error e => .error e
  | .ok (_, w') =>
      match Connection.close w' (w'.conns.length - 1) noreply_wait with
      | .error e => .error e
      | .ok w'' => .ok (w''.dropAt (w''.conns.length - 1))

/-- Modelled from the spec: `run` on a changefeed query (`changes`) marks the
session's changefeed flag; the driver allows at most one active changefeed per
session, so the mark only happens when the flag is clear.  The ghost
`isFeedQuery` field of the handle records which query was the changefeed. -/
def World.markChangeFeedAt (w : World) (i : Nat) : World :=
  match w.conns[i]? with
  | none => w
  | some h =>
      if w.sess.change_feed then w
      else
        { w with sess := { w.sess with change_feed := true },
                 conns := w.conns.set i { h with isFeedQuery := true } }

/-- Translated from `Session::use_` (lines 220-224): swap the default
database. -/
def Session.use_ (w : World) (name : String) : World :=
  { w with sess := { w.sess with db := name } }

/-- The session-level events observable through the public API; `markBroken`
models the wire dispatcher hitting a fatal transport error and calling
`InnerSession::mark_broken` (the dispatcher itself lives outside `src/`). -/
inductive Op where
  | connection : Op
  | dropConn (i : Nat) : Op
  | cloneConn (i : Nat) : Op
  | connClose (i : Nat) (noreply_wait : Bool) : Op
  | sessionClose (noreply_wait : Bool) : Op
  | markChangeFeed (i : Nat) : Op
  | markBroken : Op
  | useDb (name : String) : Op
deriving DecidableEq, Repr

/-- One step of the transition system.  An operation whose Rust counterpart
returns `Err` leaves the state unchanged, as the source does. -/
def World.step (w : World) : Op → World
  | .connection =>
      match w.connectionW with
      | .error _ => w
      | .ok (_, w') => w'
  | .dropConn i => w.dropAt i
  | .cloneConn i => w.cloneAt i
  | .connClose i noreply_wait =>
      match Connection.close w i noreply_wait with
      | .error _ => w
      | .ok w' => w'
  | .sessionClose noreply_wait =>
      match Session.close w noreply_wait with
      | .error _ => w
      | .ok w' => w'
  | .markChangeFeed i => w.markChangeFeedAt i
  | .markBroken => { w with sess := w.sess.mark_broken }
  | .useDb name => Session.use_ w name

/-- Run a sequence of operations. -/
def World.run (w : World) (ops : List Op) : World :=
  ops.foldl World.step w

/-- A freshly connected session: empty registry, no live handles, the token
counter at its initial value `t0` (session construction is outside `src/`, so
the initial counter is a parameter). -/
def World.init (db : String) (t0 : Nat) : World :=
  { sess := { db := db, channels := [], tokenCtr := t0, broken := false,
              change_feed := false },
    conns := [], cells := [], sent := [], issued := [] }

/-- A session broken by a transport error (reachable: the wire dispatcher
calls `mark_broken` on any fatal I/O error). -/
def wBrokenSample : World := (World.init "test" 0).run [.markBroken]

/-- A session with one live connection (token 0) whose query is an active
changefeed. -/
def wFeedSample : World :=
  (World.init "test" 0).run [.connection, .markChangeFeed 0]

/-- A session that hit a transport error while a changefeed was active: both
the broken and the changefeed flag are set. -/
def wBothFlags : World := wFeedSample.run [.markBroken]

/-- A session whose token counter stands at `u64::MAX`, about to draw the last
token. -/
def wMaxToken : World := World.init "test" U64_MAX

/-- A session with a single ordinary live connection (token 0). -/
def wOneConn : World := (World.init "test" 0).run [.connection]

/-- A session with two live connections where the first one's query (token 0)
is the active changefeed and the second (token 1) is an ordinary query. -/
def wTwoConnsFeed0 : World :=
  (World.init "test" 0).run [.connection, .connection, .markChangeFeed 0]

/-- A session where the single connection's handle has been cloned: two live
handles share token 0. -/
def wClonePair : World := (World.init "test" 0).run [.connection, .cloneConn 0]

/-- Invariant for token issuance: the counter stays inside the `u64` range,
the ghost log of issued tokens is strictly increasing, every issued token is
below the counter while the session is not broken, and issuing `u64::MAX`
implies the broken flag. -/
def Inv1 (w : World) : Prop :=
  w.sess.tokenCtr < U64_SIZE ∧
  List.Pairwise (· < ·) w.issued ∧
  (w.sess.broken = false → ∀ t ∈ w.issued, t < w.sess.tokenCtr) ∧
  (U64_MAX ∈ w.issued → w.sess.broken = true)

/-- The registry invariant of the spec: every token in the channel registry
corresponds to exactly one live `Connection` handle holding that token. -/
def RegistryInv (w : World) : Prop :=
  ∀ tok ∈ w.sess.channels, (w.conns.filter (fun h => h.token = tok)).length = 1

/-- Freshness bookkeeping: while the session is not broken, every registered
token and every live handle's token is below the counter, and the counter is
inside the `u64` range. -/
def TokenBound (w : World) : Prop :=
  w.sess.tokenCtr < U64_SIZE ∧
  (w.sess.broken = false →
    (∀ tok ∈ w.sess.channels, tok < w.sess.tokenCtr) ∧
    (∀ h ∈ w.conns, h.token < w.sess.tokenCtr))

/-- An operation that is not a `Connection::clone`. -/
def noClone : Op → Bool
  | .cloneConn _ => false
  | _ => true

end Neor

/-- Decidable equality of `Except` values, used to evaluate the model on
concrete inputs. -/
instance instDecEqExceptResult {ε α : Type} [DecidableEq ε] [DecidableEq α] :
    DecidableEq (Except ε α)
  | .error e, .error f =>
      if h : e = f then .isTrue (by rw [h]) else
        .isFalse (fun hc => by cases hc; exact h rfl)
  | .error _, .ok _ => .isFalse (fun hc => by cases hc)
  | .ok _, .error _ => .isFalse (fun hc => by cases hc)
  | .ok x, .ok y =>
      if h : x = y then .isTrue (by rw [h]) else
        .isFalse (fun hc => by cases hc; exact h rfl)

open Wire Neor

/-- C3: serializing the command tree built by `r.table("foo").insert(doc)`,
where `doc` is the single document `{"item": "bar"}`, produces exactly
`[56,[[15,["foo"]],{"item":"bar"}]]` — insert term code 56, the table term
`[15,["foo"]]` prepended as argument 0, the document as argument 1, and no
trailing options object. -/
theorem C3_r_table_insert_serialisation :
    Term.serialise (r_table_insert "foo" itemBarDoc)
      = "[56,[[15,[\"foo\"]],\x7b\"item\":\"bar\"\x7d]]" := by
  decide

/-- C8 (amended): for the option structs that carry skip-if-none semantics —
`InsertOption`, whose every field has serde's `skip_serializing_if`, and
`ReconfigureOption`, whose hand-written `Serialize` impl skips `None` fields —
serialization emits exactly the keys whose field is set; their fully-default
structs serialize to the empty options object, a node with an empty options
object serializes without any trailing `{}` (wire form `[code,[args]]`), and
`reconfigure` with default options builds a bare `Reconfigure` node.  This
does NOT extend to every command's options struct: `GetAllOption` and
`MaxOption` lack `skip_serializing_if`, so their options objects always
contain the `index` key, set or not (see the counterexample). -/
theorem C8_options_skip_if_none :
    (∀ o : InsertOption,
      (("durability" ∈ optKeys o.toOpts) ↔ o.durability.isSome = true) ∧
      (("return_changes" ∈ optKeys o.toOpts) ↔ o.return_changes.isSome = true) ∧
      (("conflict" ∈ optKeys o.toOpts) ↔ o.conflict.isSome = true) ∧
      (("ignore_write_hook" ∈ optKeys o.toOpts) ↔ o.ignore_write_hook.isSome = true)) ∧
    (∀ o : ReconfigureOption,
      (("dry_run" ∈ optKeys o.toOpts) ↔ o.dry_run.isSome = true) ∧
      (("emergency_repair" ∈ optKeys o.toOpts) ↔ o.emergency_repair.isSome = true) ∧
      (("shards" ∈ optKeys o.toOpts) ↔ o.shards.isSome = true) ∧
      (("replicas" ∈ optKeys o.toOpts) ↔ o.replicas.isSome = true)) ∧
    InsertOption.default.toOpts = [] ∧
    ReconfigureOption.default.toOpts = [] ∧
    (∀ typ args, Term.serialise (Term.node typ args []) =
      "[" ++ toString typ.code ++ ",[" ++ Term.serialiseArgs args ++ "]" ++ "]") ∧
    reconfigure ReconfigureOption.default = Term.new .reconfigure ∧
    (∀ o : GetAllOption, optKeys o.toOpts = ["index"]) ∧
    (∀ o : MaxOption, optKeys o.toOpts = ["index"]) := by
  refine ⟨fun o => ?_, fun o => ?_, rfl, rfl, fun typ args => ?_, rfl,
    fun o => rfl, fun o => rfl⟩
  · obtain ⟨d, r, c, g⟩ := o
    cases d <;> cases r <;> cases c <;> cases g <;>
      simp [InsertOption.toOpts, Wire.optField, optKeys]
  · obtain ⟨sh, rep, dr, er⟩ := o
    cases sh <;> cases dr <;> cases er <;> rcases rep with _ | (n | ⟨m, t⟩) <;>
      simp [ReconfigureOption.toOpts, Wire.optField, optKeys]
  · simp [Term.serialise, String.append_empty]

/-- C8 counterexample: the claim as stated quantifies over EVERY command's
options struct, but `GetAllOption` (plain `#[derive(Serialize)]`, no
`skip_serializing_if`, attached unconditionally by `make_query`) does not omit
its `None` field: the fully-default `get_all` options struct serializes to
`{"index":null}`, and the term serializes WITH that options object instead of
omitting it; `MaxOption` behaves the same way. -/
theorem C8_counterexample :
    GetAllOption.default.index = none ∧
    GetAllOption.default.toOpts = [("index", Json.null)] ∧
    ("index" ∈ optKeys GetAllOption.default.toOpts) ∧
    Term.serialise (getAllQuery ["foo"] GetAllOption.default)
      = "[78,[\"foo\"],\x7b\"index\":null\x7d]" ∧
    MaxOption.default.toOpts = [("index", Json.null)] :=
  ⟨rfl, rfl, by decide, by decide, rfl⟩

theorem connectionW_broken (w : World) (h : w.sess.broken = true) :
    w.connectionW = .error .ConnectionBroken := by
  simp [World.connectionW, Session.connection, InnerSession.brokenCheck, h]

theorem connectionW_locked (w : World) (hb : w.sess.broken = false)
    (hc : w.sess.change_feed = true) :
    w.connectionW = .error .ConnectionLocked := by
  simp [World.connectionW, Session.connection, InnerSession.brokenCheck,
    InnerSession.changeFeedCheck, hb, hc]

theorem connection_ok_lt (s : InnerSession) (hb : s.broken = false)
    (hc : s.change_feed = false) (hm : s.tokenCtr ≠ U64_MAX) :
    Session.connection s = .ok (s.tokenCtr,
      { db := s.db, channels := insertKey s.tokenCtr s.channels,
        tokenCtr := (s.tokenCtr + 1) % U64_SIZE,
        broken := false, change_feed := false }) := by
  obtain ⟨d, ch, t, b, cf⟩ := s
  simp only at hb hc hm
  subst hb; subst hc
  rw [Session.connection]
  simp only [InnerSession.token, if_neg hm]
  rfl

theorem connection_ok_max (s : InnerSession) (hb : s.broken = false)
    (hc : s.change_feed = false) (hm : s.tokenCtr = U64_MAX) :
    Session.connection s = .ok (s.tokenCtr,
      { db := s.db, channels := insertKey s.tokenCtr s.channels,
        tokenCtr := (s.tokenCtr + 1) % U64_SIZE,
        broken := true, change_feed := false }) := by
  obtain ⟨d, ch, t, b, cf⟩ := s
  simp only at hb hc hm
  subst hb; subst hc
  rw [Session.connection]
  simp only [InnerSession.token, if_pos hm, InnerSession.mark_broken]
  rfl

theorem connectionW_ok_lt (w : World) (hb : w.sess.broken = false)
    (hc : w.sess.change_feed = false) (hm : w.sess.tokenCtr ≠ U64_MAX) :
    w.connectionW = .ok
      ({ token := w.sess.tokenCtr, closedCell := w.cells.length,
         isFeedQuery := false },
       { w with
          sess := { db := w.sess.db,
                    channels := insertKey w.sess.tokenCtr w.sess.channels,
                    tokenCtr := (w.sess.tokenCtr + 1) % U64_SIZE,
                    broken := false, change_feed := false },
          conns := w.conns ++ [{ token := w.sess.tokenCtr,
                                 closedCell := w.cells.length,
                                 isFeedQuery := false }],
          cells := w.cells ++ [false],
          issued := w.issued ++ [w.sess.tokenCtr] }) := by
  rw [World.connectionW, connection_ok_lt w.sess hb hc hm]

theorem connectionW_ok_max (w : World) (hb : w.sess.broken = false)
    (hc : w.sess.change_feed = false) (hm : w.sess.tokenCtr = U64_MAX) :
    w.connectionW = .ok
      ({ token := w.sess.tokenCtr, closedCell := w.cells.length,
         isFeedQuery := false },
       { w with
          sess := { db := w.sess.db,
                    channels := insertKey w.sess.tokenCtr w.sess.channels,
                    tokenCtr := (w.sess.tokenCtr + 1) % U64_SIZE,
                    broken := true, change_feed := false },
          conns := w.conns ++ [{ token := w.sess.tokenCtr,
                                 closedCell := w.cells.length,
                                 isFeedQuery := false }],
          cells := w.cells ++ [false],
          issued := w.issued ++ [w.sess.tokenCtr] }) := by
  rw [World.connectionW, connection_ok_max w.sess hb hc hm]

/-- C2: once the broken flag is set, every `Session::connection()` call
returns `ConnectionBroken` immediately — no token is allocated, no channel is
registered, nothing is sent, and the state is unchanged. -/
theorem C2_broken_fail_fast (w : World) (h : w.sess.broken = true) :
    Session.connection w.sess = .error .ConnectionBroken ∧
    w.connectionW = .error .ConnectionBroken ∧
    w.step .connection = w := by
  have h1 : Session.connection w.sess = .error .ConnectionBroken := by
    simp [Session.connection, InnerSession.brokenCheck, h]
  exact ⟨h1, connectionW_broken w h,
    by simp [World.step, connectionW_broken w h]⟩

/-- Witness for C2 at a concrete broken session. -/
theorem C2_broken_fail_fast_witness :
    wBrokenSample.sess.broken = true ∧
    (Session.connection wBrokenSample.sess = .error .ConnectionBroken ∧
     wBrokenSample.connectionW = .error .ConnectionBroken ∧
     wBrokenSample.step .connection = wBrokenSample) :=
  ⟨by decide, C2_broken_fail_fast wBrokenSample (by decide)⟩

/-- C9: the broken check precedes token allocation, so the call that draws
token `u64::MAX` itself succeeds — its channel is registered and a handle is
returned — the session comes out marked broken, and the very next
`connection()` call fails with `ConnectionBroken`, so no token is ever handed
out twice. -/
theorem C9_max_token_call_succeeds (w : World)
    (hb : w.sess.broken = false) (hc : w.sess.change_feed = false)
    (hm : w.sess.tokenCtr = U64_MAX) :
    ∃ h w', w.connectionW = .ok (h, w') ∧ h.token = U64_MAX ∧
      w'.sess.broken = true ∧
      w'.sess.channels = insertKey U64_MAX w.sess.channels ∧
      w'.conns = w.conns ++ [h] ∧
      w'.connectionW = .error .ConnectionBroken := by
  refine ⟨_, _, connectionW_ok_max w hb hc hm, hm, rfl, ?_, rfl, ?_⟩
  · rw [hm]
  · exact connectionW_broken _ rfl

/-- Witness for C9 at a session whose counter stands at `u64::MAX`. -/
theorem C9_max_token_call_succeeds_witness :
    (wMaxToken.sess.broken = false ∧ wMaxToken.sess.change_feed = false ∧
     wMaxToken.sess.tokenCtr = U64_MAX) ∧
    (∃ h w', wMaxToken.connectionW = .ok (h, w') ∧ h.token = U64_MAX ∧
      w'.sess.broken = true ∧
      w'.sess.channels = insertKey U64_MAX wMaxToken.sess.channels ∧
      w'.conns = wMaxToken.conns ++ [h] ∧
      w'.connectionW = .error .ConnectionBroken) :=
  ⟨⟨rfl, rfl, rfl⟩, C9_max_token_call_succeeds wMaxToken rfl rfl rfl⟩

/-- C4 (amended): on a session that is not broken, an active changefeed makes
`connection()` fail with `ConnectionLocked` and leaves the state unchanged;
with neither flag set it succeeds, allocates the next token, registers a fresh
channel under it and returns a `Connection` bound to it.  (When the session is
ALSO broken, the broken check wins and the error is `ConnectionBroken` — see
the counterexample.) -/
theorem C4_connection_gating (w : World) (hb : w.sess.broken = false) :
    (w.sess.change_feed = true →
      w.connectionW = .error .ConnectionLocked ∧ w.step .connection = w) ∧
    (w.sess.change_feed = false →
      ∃ h w', w.connectionW = .ok (h, w') ∧ h.token = w.sess.tokenCtr ∧
        w'.sess.channels = insertKey w.sess.tokenCtr w.sess.channels ∧
        w'.conns = w.conns ++ [h] ∧ w'.cells = w.cells ++ [false]) := by
  constructor
  · intro hc
    have h1 := connectionW_locked w hb hc
    exact ⟨h1, by simp [World.step, h1]⟩
  · intro hc
    by_cases hm : w.sess.tokenCtr = U64_MAX
    · exact ⟨_, _, connectionW_ok_max w hb hc hm, rfl, rfl, rfl, rfl⟩
    · exact ⟨_, _, connectionW_ok_lt w hb hc hm, rfl, rfl, rfl, rfl⟩

/-- Witness for C4 at a session with an active changefeed. -/
theorem C4_connection_gating_witness :
    wFeedSample.sess.broken = false ∧
    ((wFeedSample.sess.change_feed = true →
       wFeedSample.connectionW = .error .ConnectionLocked ∧
       wFeedSample.step .connection = wFeedSample) ∧
     (wFeedSample.sess.change_feed = false →
       ∃ h w', wFeedSample.connectionW = .ok (h, w') ∧
         h.token = wFeedSample.sess.tokenCtr ∧
         w'.sess.channels =
           insertKey wFeedSample.sess.tokenCtr wFeedSample.sess.channels ∧
         w'.conns = wFeedSample.conns ++ [h] ∧
         w'.cells = wFeedSample.cells ++ [false])) :=
  ⟨by decide, C4_connection_gating wFeedSample (by decide)⟩

/-- C4 counterexample: the claim as stated says `connection()` fails with
`ConnectionLocked` (not `ConnectionBroken`) whenever a changefeed is active —
but on a session that hit a transport error while its changefeed was active
(both flags set), the broken check runs first and the call fails with
`ConnectionBroken`. -/
theorem C4_counterexample :
    wBothFlags.sess.change_feed = true ∧
    wBothFlags.connectionW ≠ .error .ConnectionLocked ∧
    wBothFlags.connectionW = .error .ConnectionBroken := by decide

/-- C5 (code-bug evidence): on a session with an active changefeed (token 0),
`Session::close(true)` fails with `ConnectionLocked` — the fresh connection it
draws is rejected by the changefeed gate — so it sends no `STOP` and leaves
the changefeed flag set, contradicting its own documentation ("Closing a
result cancels the corresponding query").  `Connection::close` on the feed's
own handle does send a `STOP` and clears the flag, but `noreply_wait = true`
performs no wait for no-reply writes: no `NOREPLY_WAIT` query is ever sent,
the flag merely controls whether the `{"noreply": false}` argument rides on
the `STOP`. -/
theorem C5_close_divergence :
    wFeedSample.sess.change_feed = true ∧
    Session.close wFeedSample true = .error .ConnectionLocked ∧
    wFeedSample.step (.sessionClose true) = wFeedSample ∧
    (wFeedSample.step (.connClose 0 true)).sent
        = [{ qtype := .stop, token := 0, hasNoreplyFalseArg := false }] ∧
    (wFeedSample.step (.connClose 0 true)).sess.change_feed = false ∧
    (wFeedSample.step (.connClose 0 false)).sent
        = [{ qtype := .stop, token := 0, hasNoreplyFalseArg := true }] ∧
    (∀ q ∈ (wFeedSample.step (.connClose 0 true)).sent,
        q.qtype ≠ QueryType.noreplyWaitQuery) := by decide

/-- C6 (amended): dropping a `Connection` always removes its token from the
registry and always leaves the changefeed flag cleared — the flag is cleared
whenever it is set, regardless of whether the dropped connection's query was
the changefeed. -/
theorem C6_drop_deregisters_clears_flag (w : World) (i : Nat) (h : ConnHandle)
    (hi : w.conns[i]? = some h) :
    (w.dropAt i).sess.channels = removeKey h.token w.sess.channels ∧
    (w.dropAt i).sess.change_feed = false ∧
    (w.dropAt i).conns = w.conns.eraseIdx i := by
  unfold World.dropAt
  rw [hi]
  cases hcf : w.sess.change_feed <;> simp [hcf]

/-- Witness for C6 at a session with one live connection. -/
theorem C6_drop_deregisters_clears_flag_witness :
    wOneConn.conns[0]? = some { token := 0, closedCell := 0, isFeedQuery := false } ∧
    ((wOneConn.dropAt 0).sess.channels = removeKey 0 wOneConn.sess.channels ∧
     (wOneConn.dropAt 0).sess.change_feed = false ∧
     (wOneConn.dropAt 0).conns = wOneConn.conns.eraseIdx 0) :=
  ⟨by decide, C6_drop_deregisters_clears_flag wOneConn 0
    { token := 0, closedCell := 0, isFeedQuery := false } (by decide)⟩

/-- C6 counterexample: the claim as stated says the changefeed flag is cleared
if and only if the dropped connection's query was the changefeed — but
dropping the ordinary connection (token 1) while another connection's
changefeed (token 0) is active clears the flag anyway: the `Drop` impl tests
only the session-wide flag. -/
theorem C6_counterexample :
    (wTwoConnsFeed0.conns.map (fun h => h.isFeedQuery))[1]? = some false ∧
    wTwoConnsFeed0.sess.change_feed = true ∧
    (wTwoConnsFeed0.step (.dropConn 1)).sess.change_feed = false ∧
    (wTwoConnsFeed0.step (.dropConn 1)).sess.channels = [0] := by decide

/-- C7 counterexample: the claim says every registered token corresponds to
exactly one live `Connection` — but `Connection` derives `Clone`, and after
cloning the single handle the registry holds token 0 once while two live
handles hold it. -/
theorem C7_counterexample :
    0 ∈ wClonePair.sess.channels ∧
    (wClonePair.conns.filter (fun h => h.token = 0)).length = 2 := by decide

/-- C10 counterexample: the claim says `Session::close` with the changefeed
flag unset is a no-op returning `Ok` — but on a broken session it returns
`ConnectionBroken` (the fresh `connection()` it draws fails the broken
check). -/
theorem C10_counterexample :
    wBrokenSample.sess.change_feed = false ∧
    Session.close wBrokenSample true = .error .ConnectionBroken := by decide

theorem dropAt_frame (w : World) (i : Nat) :
    (w.dropAt i).issued = w.issued ∧
    (w.dropAt i).sess.tokenCtr = w.sess.tokenCtr ∧
    (w.dropAt i).sess.broken = w.sess.broken ∧
    (w.dropAt i).sent = w.sent := by
  unfold World.dropAt
  cases hi : w.conns[i]? with
  | none => exact ⟨rfl, rfl, rfl, rfl⟩
  | some h => cases hcf : w.sess.change_feed <;> simp [hcf]

theorem cloneAt_frame (w : World) (i : Nat) :
    (w.cloneAt i).sess = w.sess ∧ (w.cloneAt i).issued = w.issued ∧
    (w.cloneAt i).sent = w.sent := by
  unfold World.cloneAt
  cases hi : w.conns[i]? with
  | none => exact ⟨rfl, rfl, rfl⟩
  | some h => exact ⟨rfl, rfl, rfl⟩

theorem markCF_frame (w : World) (i : Nat) :
    (w.markChangeFeedAt i).sess.channels = w.sess.channels ∧
    (w.markChangeFeedAt i).sess.tokenCtr = w.sess.tokenCtr ∧
    (w.markChangeFeedAt i).sess.broken = w.sess.broken ∧
    (w.markChangeFeedAt i).issued = w.issued ∧
    (w.markChangeFeedAt i).sent = w.sent := by
  unfold World.markChangeFeedAt
  cases hi : w.conns[i]? with
  | none => exact ⟨rfl, rfl, rfl, rfl, rfl⟩
  | some h => cases hcf : w.sess.change_feed <;> simp [hcf]

theorem connClose_cases (w : World) (i : Nat) (nrw : Bool) :
    ∃ w', Connection.close w i nrw = .ok w' ∧
      w'.sess.channels = w.sess.channels ∧ w'.conns = w.conns ∧
      w'.issued = w.issued ∧ w'.sess.tokenCtr = w.sess.tokenCtr ∧
      w'.sess.broken = w.sess.broken := by
  cases hi : w.conns[i]? with
  | none => exact ⟨w, by simp [Connection.close, hi], rfl, rfl, rfl, rfl, rfl⟩
  | some h =>
    cases hcf : w.sess.change_feed with
    | false => exact ⟨w, by simp [Connection.close, hi, hcf], rfl, rfl, rfl, rfl, rfl⟩
    | true =>
      refine ⟨{ w with
          cells := w.cells.set h.closedCell true,
          sent := w.sent ++ [{ qtype := .stop, token := h.token,
                               hasNoreplyFalseArg := !nrw }],
          sess := { w.sess with change_feed := false } },
        by simp [Connection.close, hi, hcf], rfl, rfl, rfl, rfl, rfl⟩

theorem inv1_frame (w w' : World) (h : Inv1 w) (hiss : w'.issued = w.issued)
    (hctr : w'.sess.tokenCtr = w.sess.tokenCtr)
    (hbr : w.sess.broken = true → w'.sess.broken = true) : Inv1 w' := by
  obtain ⟨h1, h2, h3, h4⟩ := h
  refine ⟨hctr ▸ h1, hiss ▸ h2, ?_, ?_⟩
  · intro hb' t ht
    rw [hiss] at ht
    rw [hctr]
    refine h3 ?_ t ht
    cases hbb : w.sess.broken
    · rfl
    · exact absurd (hb' ▸ hbr hbb) (by simp)
  · intro hm
    rw [hiss] at hm
    exact hbr (h4 hm)

theorem inv1_connectionW (w : World) (hh : ConnHandle) (w' : World)
    (hi : Inv1 w) (hok : w.connectionW = .ok (hh, w')) : Inv1 w' := by
  obtain ⟨h1, h2, h3, h4⟩ := hi
  cases hb : w.sess.broken with
  | true => rw [connectionW_broken w hb] at hok; simp at hok
  | false =>
    cases hc : w.sess.change_feed with
    | true => rw [connectionW_locked w hb hc] at hok; simp at hok
    | false =>
      have hsz : U64_SIZE = U64_MAX + 1 := by norm_num [U64_SIZE, U64_MAX]
      by_cases hm : w.sess.tokenCtr = U64_MAX
      · rw [connectionW_ok_max w hb hc hm] at hok
        simp only [Except.ok.injEq, Prod.mk.injEq] at hok
        obtain ⟨hok1, hok2⟩ := hok
        subst hok2
        refine ⟨Nat.mod_lt _ (by omega), ?_, ?_, fun _ => rfl⟩
        · refine List.pairwise_append.mpr ⟨h2, List.pairwise_singleton _ _, ?_⟩
          intro a ha b hbs
          rw [List.mem_singleton] at hbs
          subst hbs
          exact h3 hb a ha
        · intro hfalse
          simp at hfalse
      · rw [connectionW_ok_lt w hb hc hm] at hok
        simp only [Except.ok.injEq, Prod.mk.injEq] at hok
        obtain ⟨hok1, hok2⟩ := hok
        subst hok2
        have hlt : w.sess.tokenCtr + 1 < U64_SIZE := by omega
        refine ⟨Nat.mod_lt _ (by omega), ?_, ?_, ?_⟩
        · refine List.pairwise_append.mpr ⟨h2, List.pairwise_singleton _ _, ?_⟩
          intro a ha b hbs
          rw [List.mem_singleton] at hbs
          subst hbs
          exact h3 hb a ha
        · intro _ t ht
          rw [Nat.mod_eq_of_lt hlt]
          rcases List.mem_append.mp ht with hold | hnew
          · exact Nat.lt_succ_of_lt (h3 hb t hold)
          · rw [List.mem_singleton] at hnew
            subst hnew
            exact Nat.lt_succ_self _
        · intro hmem
          rcases List.mem_append.mp hmem with hold | hnew
          · exact absurd (h4 hold) (by simp [hb])
          · rw [List.mem_singleton] at hnew
            exact absurd hnew.symm hm

theorem inv1_step (w : World) (op : Op) (h : Inv1 w) : Inv1 (w.step op) := by
  cases op with
  | connection =>
    cases hcw : w.connectionW with
    | error e => simpa [World.step, hcw] using h
    | ok p =>
      obtain ⟨hh, w'⟩ := p
      simp only [World.step, hcw]
      exact inv1_connectionW w hh w' h hcw
  | dropConn i =>
    obtain ⟨hiss, hctr, hbr, _⟩ := dropAt_frame w i
    exact inv1_frame w _ h hiss hctr (fun hb => hbr ▸ hb)
  | cloneConn i =>
    obtain ⟨hs, hiss, _⟩ := cloneAt_frame w i
    exact inv1_frame w (w.cloneAt i) h hiss (by rw [hs])
      (fun hb => by rw [hs]; exact hb)
  | connClose i nrw =>
    obtain ⟨w', hcc, _, _, hiss, hctr, hbr⟩ := connClose_cases w i nrw
    simp only [World.step, hcc]
    exact inv1_frame w w' h hiss hctr (fun hb => hbr ▸ hb)
  | sessionClose nrw =>
    cases hcw : w.connectionW with
    | error e => simpa [World.step, Session.close, hcw] using h
    | ok p =>
      obtain ⟨hh, w'⟩ := p
      have h' := inv1_connectionW w hh w' h hcw
      obtain ⟨w'', hcc, _, _, hiss, hctr, hbr⟩ :=
        connClose_cases w' (w'.conns.length - 1) nrw
      have h'' := inv1_frame w' w'' h' hiss hctr (fun hb => hbr ▸ hb)
      obtain ⟨hiss2, hctr2, hbr2, _⟩ := dropAt_frame w'' (w''.conns.length - 1)
      have h''' := inv1_frame w'' _ h'' hiss2 hctr2 (fun hb => hbr2 ▸ hb)
      simpa [World.step, Session.close, hcw, hcc] using h'''
  | markChangeFeed i =>
    obtain ⟨_, hctr, hbr, hiss, _⟩ := markCF_frame w i
    exact inv1_frame w _ h hiss hctr (fun hb => hbr ▸ hb)
  | markBroken =>
    exact inv1_frame w _ h rfl rfl (fun _ => rfl)
  | useDb name =>
    exact inv1_frame w _ h rfl rfl (fun hb => hb)

theorem inv1_run (w : World) (ops : List Op) (h : Inv1 w) : Inv1 (w.run ops) := by
  induction ops generalizing w with
  | nil => exact h
  | cons op rest ih => exact ih _ (inv1_step w op h)

theorem broken_mono_step (w : World) (op : Op) (h : w.sess.broken = true) :
    (w.step op).sess.broken = true := by
  cases op with
  | connection => simp [World.step, connectionW_broken w h, h]
  | dropConn i =>
    show (w.dropAt i).sess.broken = true
    rw [(dropAt_frame w i).2.2.1]; exact h
  | cloneConn i =>
    show (w.cloneAt i).sess.broken = true
    rw [(cloneAt_frame w i).1]; exact h
  | connClose i nrw =>
    obtain ⟨w', hcc, _, _, _, _, hbr⟩ := connClose_cases w i nrw
    simp only [World.step, hcc]
    rw [hbr]; exact h
  | sessionClose nrw => simp [World.step, Session.close, connectionW_broken w h, h]
  | markChangeFeed i =>
    show (w.markChangeFeedAt i).sess.broken = true
    rw [(markCF_frame w i).2.2.1]; exact h
  | markBroken => rfl
  | useDb name => exact h

theorem broken_mono_run (w : World) (ops : List Op) (h : w.sess.broken = true) :
    (w.run ops).sess.broken = true := by
  induction ops generalizing w with
  | nil => exact h
  | cons op rest ih => exact ih _ (broken_mono_step w op h)

/-- C1: along every sequence of operations on one session, the tokens issued
by `Session::connection` are strictly increasing (each is greater than every
earlier one) and never repeat; and once token `u64::MAX` has been issued (the
counter is exhausted) the session is broken, permanently — it stays broken
under every further operation sequence. -/
theorem C1_token_uniqueness (db : String) (t0 : Nat) (h0 : t0 < U64_SIZE)
    (ops ops2 : List Op) :
    List.Pairwise (· < ·) (((World.init db t0).run ops).issued) ∧
    (((World.init db t0).run ops).issued).Nodup ∧
    (U64_MAX ∈ ((World.init db t0).run ops).issued →
      ((((World.init db t0).run ops).run ops2).sess.broken = true)) := by
  have hinit : Inv1 (World.init db t0) := by
    refine ⟨h0, List.Pairwise.nil, ?_, ?_⟩
    · intro _ t ht
      cases ht
    · intro hm
      cases hm
  have hrun := inv1_run _ ops hinit
  refine ⟨hrun.2.1, List.Pairwise.imp (fun hlt => Nat.ne_of_lt hlt) hrun.2.1, ?_⟩
  intro hm
  exact broken_mono_run _ ops2 (hrun.2.2.2 hm)

/-- Witness for C1 at a fresh session running two `connection()` calls. -/
theorem C1_token_uniqueness_witness :
    0 < U64_SIZE ∧
    (List.Pairwise (· < ·)
        (((World.init "test" 0).run [Op.connection, Op.connection]).issued) ∧
     (((World.init "test" 0).run [Op.connection, Op.connection]).issued).Nodup ∧
     (U64_MAX ∈ ((World.init "test" 0).run [Op.connection, Op.connection]).issued →
       ((((World.init "test" 0).run [Op.connection, Op.connection]).run
           []).sess.broken = true))) :=
  ⟨by norm_num [U64_SIZE],
   C1_token_uniqueness "test" 0 (by norm_num [U64_SIZE])
     [Op.connection, Op.connection] []⟩

theorem getElem?_append_singleton {α : Type} (l : List α) (a : α) :
    (l ++ [a])[l.length]? = some a := by
  induction l with
  | nil => rfl
  | cons b tl ih => simp [ih]

theorem eraseIdx_append_singleton {α : Type} (l : List α) (a : α) :
    (l ++ [a]).eraseIdx l.length = l := by
  induction l with
  | nil => rfl
  | cons b tl ih => simp [ih]

theorem removeKey_insertKey (k : Nat) (l : List Nat) (h : k ∉ l) :
    removeKey k (insertKey k l) = l := by
  rw [insertKey, if_neg h, removeKey]
  rw [List.filter_cons_of_neg (by simp)]
  exact List.filter_eq_self.mpr (fun a ha => by
    simp only [decide_eq_true_eq]
    intro hk
    exact h (hk ▸ ha))

theorem sessionClose_ok (w : World) (nrw : Bool) (hb : w.sess.broken = false)
    (hc : w.sess.change_feed = false) (hm : w.sess.tokenCtr ≠ U64_MAX) :
    Session.close w nrw = .ok
      { w with
         sess := { db := w.sess.db,
                   channels := removeKey w.sess.tokenCtr
                                 (insertKey w.sess.tokenCtr w.sess.channels),
                   tokenCtr := (w.sess.tokenCtr + 1) % U64_SIZE,
                   broken := false, change_feed := false },
         conns := w.conns,
         cells := w.cells ++ [false],
         issued := w.issued ++ [w.sess.tokenCtr] } := by
  have hcw := connectionW_ok_lt w hb hc hm
  unfold Session.close
  rw [hcw]
  simp [Connection.close, World.dropAt, getElem?_append_singleton,
    eraseIdx_append_singleton]

/-- C10 (amended): `Connection::close` while the changefeed flag is unset is a
pure no-op returning `Ok` — no query is sent, the closed flag, the token
registration and every piece of session state are untouched.  `Session::close`
in the same situation returns `Ok` with db, flags, registry and live handles
unchanged only when the session is additionally not broken (on a broken
session it fails with `ConnectionBroken`, see the counterexample) and the
token counter is not at `u64::MAX`; it does advance the token counter by one,
since it draws and immediately drops a fresh connection. -/
theorem C10_close_noop (w : World) (hc : w.sess.change_feed = false) :
    (∀ i nrw, Connection.close w i nrw = .ok w) ∧
    (∀ nrw, w.sess.broken = false → w.sess.tokenCtr ≠ U64_MAX →
      w.sess.tokenCtr < U64_SIZE → w.sess.tokenCtr ∉ w.sess.channels →
      ∃ w', Session.close w nrw = .ok w' ∧ w'.sess.db = w.sess.db ∧
        w'.sess.broken = false ∧ w'.sess.change_feed = false ∧
        w'.sess.channels = w.sess.channels ∧ w'.conns = w.conns ∧
        w'.sent = w.sent ∧ w'.sess.tokenCtr = w.sess.tokenCtr + 1) := by
  constructor
  · intro i nrw
    cases hi : w.conns[i]? with
    | none => simp [Connection.close, hi]
    | some h => simp [Connection.close, hi, hc]
  · intro nrw hb hm hsize hfresh
    have hsz : U64_SIZE = U64_MAX + 1 := by norm_num [U64_SIZE, U64_MAX]
    refine ⟨_, sessionClose_ok w nrw hb hc hm, rfl, rfl, rfl,
      removeKey_insertKey _ _ hfresh, rfl, rfl, ?_⟩
    exact Nat.mod_eq_of_lt (by omega)

/-- Witness for C10 at a session with one ordinary live connection. -/
theorem C10_close_noop_witness :
    wOneConn.sess.change_feed = false ∧
    ((∀ i nrw, Connection.close wOneConn i nrw = .ok wOneConn) ∧
     (∀ nrw, wOneConn.sess.broken = false → wOneConn.sess.tokenCtr ≠ U64_MAX →
       wOneConn.sess.tokenCtr < U64_SIZE →
       wOneConn.sess.tokenCtr ∉ wOneConn.sess.channels →
       ∃ w', Session.close wOneConn nrw = .ok w' ∧
         w'.sess.db = wOneConn.sess.db ∧
         w'.sess.broken = false ∧ w'.sess.change_feed = false ∧
         w'.sess.channels = wOneConn.sess.channels ∧
         w'.conns = wOneConn.conns ∧
         w'.sent = wOneConn.sent ∧
         w'.sess.tokenCtr = wOneConn.sess.tokenCtr + 1)) :=
  ⟨by decide, C10_close_noop wOneConn (by decide)⟩

theorem filter_eraseIdx_of_not {α : Type} (l : List α) (i : Nat) (a : α)
    (hi : l[i]? = some a) (p : α → Bool) (hpa : p a = false) :
    (l.eraseIdx i).filter p = l.filter p := by
  induction l generalizing i with
  | nil => cases hi
  | cons b tl ih =>
    cases i with
    | zero =>
      obtain rfl : b = a := by simpa using hi
      rw [List.eraseIdx_cons_zero, List.filter_cons_of_neg (by simp [hpa])]
    | succ j =>
      rw [List.getElem?_cons_succ] at hi
      cases hpb : p b with
      | false =>
        rw [List.eraseIdx_cons_succ, List.filter_cons_of_neg (by simp [hpb]),
          List.filter_cons_of_neg (by simp [hpb])]
        exact ih j hi
      | true =>
        rw [List.eraseIdx_cons_succ, List.filter_cons_of_pos (by simp [hpb]),
          List.filter_cons_of_pos (by simp [hpb]), ih j hi]

theorem filter_set_same {α : Type} (l : List α) (i : Nat) (a b : α)
    (hi : l[i]? = some a) (p : α → Bool) (hab : p b = p a) :
    ((l.set i b).filter p).length = (l.filter p).length := by
  induction l generalizing i with
  | nil => cases hi
  | cons c tl ih =>
    cases i with
    | zero =>
      obtain rfl : c = a := by simpa using hi
      cases hpc : p c <;> simp [List.filter_cons, hpc, hab]
    | succ j =>
      rw [List.getElem?_cons_succ] at hi
      cases hpc : p c <;> simp [List.filter_cons, hpc, ih j hi]

theorem mem_insertKey {tok k : Nat} {l : List Nat} (h : tok ∈ insertKey k l) :
    tok = k ∨ tok ∈ l := by
  rw [insertKey] at h
  split at h
  · exact Or.inr h
  · rcases List.mem_cons.mp h with rfl | h2
    · exact Or.inl rfl
    · exact Or.inr h2

theorem dropAt_eq (w : World) (i : Nat) (h : ConnHandle)
    (hi : w.conns[i]? = some h) :
    w.dropAt i =
      { w with
        sess := { w.sess with
                  channels := removeKey h.token w.sess.channels,
                  change_feed := false },
        conns := w.conns.eraseIdx i } := by
  unfold World.dropAt
  rw [hi]
  cases hcf : w.sess.change_feed <;> simp [hcf]

theorem reg_insert_core (w : World) (h7 : RegistryInv w)
    (hch : ∀ tok ∈ w.sess.channels, tok < w.sess.tokenCtr)
    (hcn : ∀ h ∈ w.conns, h.token < w.sess.tokenCtr)
    (hdl : ConnHandle) (hhdl : hdl.token = w.sess.tokenCtr) :
    ∀ tok ∈ insertKey w.sess.tokenCtr w.sess.channels,
      ((w.conns ++ [hdl]).filter (fun h => h.token = tok)).length = 1 := by
  have hfresh : w.sess.tokenCtr ∉ w.sess.channels :=
    fun hmem => absurd (hch _ hmem) (lt_irrefl _)
  intro tok htok
  rw [insertKey, if_neg hfresh, List.mem_cons] at htok
  rw [List.filter_append]
  rcases htok with rfl | hold
  · have h0 : w.conns.filter (fun h => h.token = w.sess.tokenCtr) = [] := by
      rw [List.filter_eq_nil_iff]
      intro a ha
      simp only [decide_eq_true_eq]
      exact Nat.ne_of_lt (hcn a ha)
    rw [h0]
    simp [List.filter_cons, hhdl]
  · have hne : hdl.token ≠ tok := by
      rw [hhdl]
      exact ne_of_gt (hch tok hold)
    have h1 : [hdl].filter (fun h => h.token = tok) = [] := by
      simp [List.filter_cons, hne]
    rw [h1, List.append_nil]
    exact h7 tok hold

theorem reg_connectionW (w : World) (hh : ConnHandle) (w' : World)
    (h7 : RegistryInv w) (hB : TokenBound w)
    (hok : w.connectionW = .ok (hh, w')) :
    RegistryInv w' ∧ TokenBound w' := by
  cases hb : w.sess.broken with
  | true => rw [connectionW_broken w hb] at hok; simp at hok
  | false =>
    cases hc : w.sess.change_feed with
    | true => rw [connectionW_locked w hb hc] at hok; simp at hok
    | false =>
      have hsz : U64_SIZE = U64_MAX + 1 := by norm_num [U64_SIZE, U64_MAX]
      obtain ⟨hB1, hB2⟩ := hB
      obtain ⟨hch, hcn⟩ := hB2 hb
      by_cases hm : w.sess.tokenCtr = U64_MAX
      · rw [connectionW_ok_max w hb hc hm] at hok
        simp only [Except.ok.injEq, Prod.mk.injEq] at hok
        obtain ⟨hok1, hok2⟩ := hok
        subst hok2
        refine ⟨reg_insert_core w h7 hch hcn _ rfl, Nat.mod_lt _ (by omega), ?_⟩
        intro hfb
        exact Bool.noConfusion (hfb : true = false)
      · rw [connectionW_ok_lt w hb hc hm] at hok
        simp only [Except.ok.injEq, Prod.mk.injEq] at hok
        obtain ⟨hok1, hok2⟩ := hok
        subst hok2
        have hmod : (w.sess.tokenCtr + 1) % U64_SIZE = w.sess.tokenCtr + 1 :=
          Nat.mod_eq_of_lt (by omega)
        refine ⟨reg_insert_core w h7 hch hcn _ rfl, Nat.mod_lt _ (by omega), ?_⟩
        intro _
        constructor
        · intro tok htok
          have htok' : tok ∈ insertKey w.sess.tokenCtr w.sess.channels := htok
          show tok < (w.sess.tokenCtr + 1) % U64_SIZE
          rw [hmod]
          rcases mem_insertKey htok' with rfl | hold
          · omega
          · have := hch tok hold
            omega
        · intro h2 hm2
          have hm2' : h2 ∈ w.conns ++
              [{ token := w.sess.tokenCtr, closedCell := w.cells.length,
                 isFeedQuery := false }] := hm2
          show h2.token < (w.sess.tokenCtr + 1) % U64_SIZE
          rw [hmod]
          rcases List.mem_append.mp hm2' with hold | hnew
          · have := hcn h2 hold
            omega
          · rw [List.mem_singleton] at hnew
            rw [hnew]
            show w.sess.tokenCtr < w.sess.tokenCtr + 1
            exact Nat.lt_succ_self _

theorem reg_frame (w w' : World) (h7 : RegistryInv w) (hB : TokenBound w)
    (hch : w'.sess.channels = w.sess.channels) (hco : w'.conns = w.conns)
    (hctr : w'.sess.tokenCtr = w.sess.tokenCtr)
    (hbr : w'.sess.broken = w.sess.broken) :
    RegistryInv w' ∧ TokenBound w' := by
  constructor
  · intro tok htok
    rw [hch] at htok
    rw [hco]
    exact h7 tok htok
  · constructor
    · rw [hctr]
      exact hB.1
    · intro hfb
      rw [hbr] at hfb
      obtain ⟨x, y⟩ := hB.2 hfb
      constructor
      · intro tok ht
        rw [hch] at ht
        rw [hctr]
        exact x tok ht
      · intro h2 hm2
        rw [hco] at hm2
        rw [hctr]
        exact y h2 hm2

theorem reg_dropAt (w : World) (i : Nat) (h7 : RegistryInv w) (hB : TokenBound w) :
    RegistryInv (w.dropAt i) ∧ TokenBound (w.dropAt i) := by
  cases hi : w.conns[i]? with
  | none =>
    have he : w.dropAt i = w := by unfold World.dropAt; rw [hi]
    rw [he]
    exact ⟨h7, hB⟩
  | some h =>
    rw [dropAt_eq w i h hi]
    constructor
    · intro tok htok
      have htok' : tok ∈ removeKey h.token w.sess.channels := htok
      simp only [removeKey, List.mem_filter, decide_eq_true_eq] at htok'
      obtain ⟨hold, hne⟩ := htok'
      have hpa : (fun h2 : ConnHandle => decide (h2.token = tok)) h = false :=
        decide_eq_false (fun heq => hne heq.symm)
      show ((w.conns.eraseIdx i).filter (fun h2 => h2.token = tok)).length = 1
      rw [filter_eraseIdx_of_not w.conns i h hi
        (fun h2 => decide (h2.token = tok)) hpa]
      exact h7 tok hold
    · refine ⟨hB.1, fun hfb => ?_⟩
      have hfb' : w.sess.broken = false := hfb
      obtain ⟨x, y⟩ := hB.2 hfb'
      constructor
      · intro tok ht
        have ht' : tok ∈ removeKey h.token w.sess.channels := ht
        simp only [removeKey, List.mem_filter] at ht'
        show tok < w.sess.tokenCtr
        exact x tok ht'.1
      · intro h2 hm2
        have hm2' : h2 ∈ w.conns.eraseIdx i := hm2
        show h2.token < w.sess.tokenCtr
        exact y h2 (List.eraseIdx_subset _ _ hm2')

theorem reg_markCF (w : World) (i : Nat) (h7 : RegistryInv w) (hB : TokenBound w) :
    RegistryInv (w.markChangeFeedAt i) ∧ TokenBound (w.markChangeFeedAt i) := by
  cases hi : w.conns[i]? with
  | none =>
    have he : w.markChangeFeedAt i = w := by unfold World.markChangeFeedAt; rw [hi]
    rw [he]
    exact ⟨h7, hB⟩
  | some h =>
    cases hcf : w.sess.change_feed with
    | true =>
      have he : w.markChangeFeedAt i = w := by
        unfold World.markChangeFeedAt
        rw [hi]
        simp [hcf]
      rw [he]
      exact ⟨h7, hB⟩
    | false =>
      have he : w.markChangeFeedAt i =
          { w with sess := { w.sess with change_feed := true },
                   conns := w.conns.set i { h with isFeedQuery := true } } := by
        unfold World.markChangeFeedAt
        rw [hi]
        simp [hcf]
      rw [he]
      constructor
      · intro tok htok
        have htok' : tok ∈ w.sess.channels := htok
        show ((w.conns.set i { h with isFeedQuery := true }).filter
          (fun h2 => h2.token = tok)).length = 1
        rw [filter_set_same w.conns i h { h with isFeedQuery := true } hi
          (fun h2 => decide (h2.token = tok)) rfl]
        exact h7 tok htok'
      · refine ⟨hB.1, fun hfb => ?_⟩
        have hfb' : w.sess.broken = false := hfb
        obtain ⟨x, y⟩ := hB.2 hfb'
        constructor
        · intro tok ht
          have ht' : tok ∈ w.sess.channels := ht
          show tok < w.sess.tokenCtr
          exact x tok ht'
        · intro h2 hm2
          have hm2' : h2 ∈ w.conns.set i { h with isFeedQuery := true } := hm2
          show h2.token < w.sess.tokenCtr
          rcases List.mem_or_eq_of_mem_set hm2' with hold | heq
          · exact y h2 hold
          · rw [heq]
            exact y h (List.getElem?_mem hi)

theorem reg_step (w : World) (op : Op) (hop : noClone op = true)
    (h7 : RegistryInv w) (hB : TokenBound w) :
    RegistryInv (w.step op) ∧ TokenBound (w.step op) := by
  cases op with
  | connection =>
    cases hcw : w.connectionW with
    | error e =>
      simp only [World.step, hcw]
      exact ⟨h7, hB⟩
    | ok p =>
      obtain ⟨hh, w'⟩ := p
      simp only [World.step, hcw]
      exact reg_connectionW w hh w' h7 hB hcw
  | dropConn i => exact reg_dropAt w i h7 hB
  | cloneConn i => simp [noClone] at hop
  | connClose i nrw =>
    obtain ⟨w', hcc, hch2, hco, _, hctr, hbr⟩ := connClose_cases w i nrw
    simp only [World.step, hcc]
    exact reg_frame w w' h7 hB hch2 hco hctr hbr
  | sessionClose nrw =>
    cases hcw : w.connectionW with
    | error e =>
      simp only [World.step, Session.close, hcw]
      exact ⟨h7, hB⟩
    | ok p =>
      obtain ⟨hh, w'⟩ := p
      have H1 := reg_connectionW w hh w' h7 hB hcw
      obtain ⟨w'', hcc, hch2, hco, _, hctr, hbr⟩ :=
        connClose_cases w' (w'.conns.length - 1) nrw
      have H2 := reg_frame w' w'' H1.1 H1.2 hch2 hco hctr hbr
      have H3 := reg_dropAt w'' (w''.conns.length - 1) H2.1 H2.2
      simpa [World.step, Session.close, hcw, hcc] using H3
  | markChangeFeed i => exact reg_markCF w i h7 hB
  | markBroken =>
    refine ⟨h7, hB.1, fun hfb => ?_⟩
    exact Bool.noConfusion (hfb : true = false)
  | useDb name => exact ⟨h7, hB⟩

theorem reg_run (w : World) (ops : List Op)
    (hops : ∀ op ∈ ops, noClone op = true)
    (h7 : RegistryInv w) (hB : TokenBound w) :
    RegistryInv (w.run ops) ∧ TokenBound (w.run ops) := by
  induction ops generalizing w with
  | nil => exact ⟨h7, hB⟩
  | cons op rest ih =>
    have hstep := reg_step w op (hops op (List.mem_cons_self _ _)) h7 hB
    exact ih _ (fun o ho => hops o (List.mem_cons_of_mem _ ho)) hstep.1 hstep.2

/-- C7 (amended): in every execution that never clones a `Connection` handle,
each token present in the session's channel registry corresponds to exactly
one live `Connection` holding that token — no registry entry outlives its
connection and no two live connections share a registered token.  (With
cloning — which `Connection` derives — the counterexample shows two live
handles sharing one registered token.) -/
theorem C7_registry_one_handle (db : String) (t0 : Nat) (h0 : t0 < U64_SIZE)
    (ops : List Op) (hops : ∀ op ∈ ops, noClone op = true) :
    RegistryInv ((World.init db t0).run ops) := by
  have h7 : RegistryInv (World.init db t0) := by
    intro tok htok
    cases htok
  have hB : TokenBound (World.init db t0) := by
    refine ⟨h0, fun _ => ⟨?_, ?_⟩⟩
    · intro tok htok
      cases htok
    · intro h hm
      cases hm
  exact (reg_run _ ops hops h7 hB).1

/-- Witness for C7 on a clone-free trace: connect twice, drop the first. -/
theorem C7_registry_one_handle_witness :
    (0 < U64_SIZE ∧
     ∀ op ∈ ([Op.connection, Op.connection, Op.dropConn 0] : List Op),
       noClone op = true) ∧
    RegistryInv ((World.init "test" 0).run
      [Op.connection, Op.connection, Op.dropConn 0]) :=
  ⟨⟨by norm_num [U64_SIZE], by decide⟩,
   C7_registry_one_handle "test" 0 (by norm_num [U64_SIZE])
     [Op.connection, Op.connection, Op.dropConn 0] (by decide)⟩
